import Mathlib

/-!
Shallow embedding of `src/boat/quiz_bot.py` (Telegram quiz bot).

The embedding covers the two CORE stages of the pipeline:
  * `QuestionBank.load_csv` (lines 50-104): header validation, per-row
    normalization (option trimming/compaction, correct-answer resolution
    with its default-to-first fallback), and appending to the bank.
  * `send_quiz_batch` (lines 124-148): batching, per-item poll payload
    construction, the try/except around `send_poll`, and the pacing sleeps.

CSV decoding, the filesystem check (`path.exists()`), logging format and the
Telegram transport are external collaborators; the transport is modelled as
an oracle `sendOk : Nat -> Bool` giving the outcome of the send attempt for
the item at each global index (the code performs exactly one attempt per
item), and observable behaviour is modelled as a trace of `Event`s.
Python `str.strip` / `str.isdigit` / `int` are modelled on the character
list of the string (`pyStrip`, `pyIsDigit`, `pyInt`); a `csv.DictReader`
row is modelled as a record of `Option String` fields (a field is `none`
when the physical row is shorter than the header), and Python's
`x or ""` / `x or None` idioms are `getOr` / `orNone`.
-/

/-- Python `str.strip()` on the character list: drop whitespace from both
ends. -/
def pyStripList (l : List Char) : List Char :=
  ((l.dropWhile Char.isWhitespace).reverse.dropWhile Char.isWhitespace).reverse

/-- Python `str.strip()`. -/
def pyStrip (s : String) : String :=
  String.mk (pyStripList s.data)

/-- Python `str.isdigit()` restricted to decimal digits: non-empty and all
characters are digits. -/
def pyIsDigit (s : String) : Bool :=
  !s.data.isEmpty && s.data.all Char.isDigit

/-- Value of a decimal digit string, as Python `int(s)` on such a string. -/
def pyInt (s : String) : Nat :=
  s.data.foldl (fun n c => 10 * n + (c.toNat - '0'.toNat)) 0

/-- Python `list.index(a)`: position of the first occurrence (the code only
calls it under a membership guard, so the out-of-list value is irrelevant;
we return the length there, like `List.indexOf`). -/
def pyIndex (a : String) : List String → Nat
  | [] => 0
  | x :: xs => if x = a then 0 else pyIndex a xs + 1

/-- Python truthiness of an optional string: `None` and `""` are falsy. -/
def pyFalsy (x : Option String) : Bool :=
  x = none || x = some ""

/-- Python `row.get(k) or ""`. -/
def getOr (x : Option String) : String :=
  x.getD ""

/-- Python `row.get(k) or None`: `""` collapses to `None`. -/
def orNone (x : Option String) : Option String :=
  match x with
  | none => none
  | some s => if s = "" then none else some s

/-- One `csv.DictReader` row of the quiz CSV (header validation has already
guaranteed the nine required columns exist; a missing physical value is
`none`). -/
structure RawRow where
  question_no : Option String
  question : Option String
  option1 : Option String
  option2 : Option String
  option3 : Option String
  option4 : Option String
  correct_answer : Option String
  description : Option String
  reference : Option String
deriving DecidableEq

/-- The `QuizItem` dataclass (quiz_bot.py lines 37-44). -/
structure QuizItem where
  question_no : String
  question : String
  options : List String
  correct_option_id : Nat
  description : Option String
  reference : Option String
deriving DecidableEq

/-- The required-column set checked by `load_csv` (lines 56-59). -/
def requiredColumns : List String :=
  ["question_no", "question", "option1", "option2",
   "option3", "option4", "correct_answer", "description", "reference"]

/-- Lines 67-73: strip the four option fields, keep the truthy (non-empty)
ones in order. -/
def postTrimOptions (row : RawRow) : List String :=
  ([pyStrip (getOr row.option1), pyStrip (getOr row.option2),
    pyStrip (getOr row.option3), pyStrip (getOr row.option4)]).filter
    (fun o => !o.data.isEmpty)

/-- Lines 77-92: resolve the raw correct answer to a candidate index `cid`
(an `Int`, since `int(correct_raw) - 1` can be `-1`), together with whether
the mismatch warning was logged.  Branches, in order: all-digits value,
exact match in the option list, exact match after re-stripping both sides,
and the warning fallback `cid = 0`. -/
def resolveCid (correct_raw : String) (options : List String) : Int × Bool :=
  if pyIsDigit correct_raw then
    ((pyInt correct_raw : Int) - 1, false)
  else if correct_raw ∈ options then
    ((pyIndex correct_raw options : Int), false)
  else
    if pyStrip correct_raw ∈ options.map pyStrip then
      ((pyIndex (pyStrip correct_raw) (options.map pyStrip) : Int), false)
    else
      (0, true)

/-- Lines 63-103, one loop iteration: `none` when the row is skipped for a
falsy `question`; otherwise the appended `QuizItem` plus the warning flag.
The stored index is `cid if 0 <= cid < len(options) else 0` (line 99). -/
def normalizeRow (row : RawRow) : Option (QuizItem × Bool) :=
  if pyFalsy row.question then
    none
  else
    let options := postTrimOptions row
    let correct_raw := pyStrip (getOr row.correct_answer)
    let cw := resolveCid correct_raw options
    some
      ({ question_no := getOr row.question_no
         question := getOr row.question
         options := options
         correct_option_id :=
           if 0 ≤ cw.1 ∧ cw.1 < (options.length : Int) then cw.1.toNat else 0
         description := orNone row.description
         reference := orNone row.reference }, cw.2)

/-- `QuestionBank.load_csv` (lines 50-104) on an already-decoded table:
`fieldnames` is the header, `rows` the data rows, `items0` the bank's
current `self.items`.  On success it returns the new `self.items` and the
returned count `len(self.items)`; the missing-column check raises
(`Except.error`) before any row is read. -/
def loadCSV (fieldnames : List String) (rows : List RawRow)
    (items0 : List QuizItem) : Except String (List QuizItem × Nat) :=
  if requiredColumns.all (fun c => fieldnames.contains c) then
    let items := items0 ++ rows.filterMap (fun r => (normalizeRow r).map Prod.fst)
    Except.ok (items, items.length)
  else
    Except.error "CSV missing columns"

/-- quiz_bot.py line 22. -/
def BATCH_SIZE : Nat := 100

/-- quiz_bot.py line 23 (seconds). -/
def DELAY_BETWEEN_POLLS : Nat := 2

/-- quiz_bot.py line 24 (seconds). -/
def DELAY_BETWEEN_BATCHES : Nat := 10

/-- Observable steps of `send_quiz_batch`: a `send_poll` call with its
payload, an `asyncio.sleep`, or a logged error. -/
inductive Event where
  | sendPoll (chat_id : String) (question : String) (options : List String)
      (correct_option_id : Nat) (explanation : String) (is_anonymous : Bool)
  | sleep (seconds : Nat)
  | logError (msg : String)
deriving DecidableEq

/-- The anonymity flag of a poll event, `none` for other events. -/
def Event.anonFlag : Event → Option Bool
  | .sendPoll _ _ _ _ _ anon => some anon
  | _ => none

/-- Whether an event is a `send_poll` call. -/
def Event.isPoll : Event → Bool
  | .sendPoll _ _ _ _ _ _ => true
  | _ => false

/-- Whether an event is a sleep of `n` seconds. -/
def Event.isSleep (n : Nat) : Event → Bool
  | .sleep m => m == n
  | _ => false

/-- Whether an event is a logged error. -/
def Event.isLog : Event → Bool
  | .logError _ => true
  | _ => false

/-- Python character slicing `s[:n]`. -/
def pySlice (s : String) (n : Nat) : String :=
  String.mk (s.data.take n)

/-- Lines 131-143: the `send_poll` payload for one item — display text
`"<no>) <question>"` with the reference appended on a new line when
present, truncated to 300; options truncated to 10; explanation truncated
to 200; `is_anonymous=True` always. -/
def mkPoll (chat_id : String) (item : QuizItem) : Event :=
  let q := item.question_no ++ ") " ++ item.question
  let q :=
    match item.reference with
    | some r => q ++ "\n" ++ r
    | none => q
  Event.sendPoll chat_id (pySlice q 300) (item.options.take 10)
    item.correct_option_id (pySlice (getOr item.description) 200) true

/-- Structural worker for `batches`: `fuel` bounds the number of slices
(`xs.length` suffices when `b > 0`), so the definition reduces in the
kernel. -/
def batchesAux (b : Nat) : Nat → List α → List (List α)
  | _, [] => []
  | 0, _ :: _ => []
  | fuel + 1, x :: xs => ((x :: xs).take b) :: batchesAux b fuel ((x :: xs).drop b)

/-- The contiguous slices `xs[s : s+b]` for `s = 0, b, 2b, ...` (line 126's
`range(0, len(items), BATCH_SIZE)` slicing; the program only uses
`b = BATCH_SIZE = 100`, and Python `range` would reject step `0`). -/
def batches (b : Nat) (xs : List α) : List (List α) :=
  batchesAux b xs.length xs

/-- Lines 129-146, the inner loop over one batch of (0-based global index,
item) pairs: attempt the send; on success sleep `DELAY_BETWEEN_POLLS`, on
failure log the error (the sleep inside the `try` is skipped) and continue.
`sendOk i` is the transport outcome for the item at global index `i`. -/
def sendItems (chat_id : String) (sendOk : Nat → Bool) :
    List (Nat × QuizItem) → List Event
  | [] => []
  | (i, item) :: rest =>
    if sendOk i then
      mkPoll chat_id item :: Event.sleep DELAY_BETWEEN_POLLS ::
        sendItems chat_id sendOk rest
    else
      mkPoll chat_id item ::
        Event.logError ("Failed to send question " ++ toString (i + 1)) ::
        sendItems chat_id sendOk rest

/-- `send_quiz_batch` (lines 124-148): batch the bank, run the item loop on
each batch, sleep `DELAY_BETWEEN_BATCHES` after each batch.  `to_channel`
is the unused keyword parameter of the Python function. -/
def sendQuizBatch (chat_id : String) (to_channel : Bool) (sendOk : Nat → Bool)
    (items : List QuizItem) : List Event :=
  ((batches BATCH_SIZE items.enum).map
    (fun batch => sendItems chat_id sendOk batch ++
      [Event.sleep DELAY_BETWEEN_BATCHES])).flatten

/-- The spec's worked example row: `{question_no:"1", question:"2+2?", option1:"3", option2:"4", option3:"5", option4:"", correct_answer:"4"}`. -/
def exRowSpec : RawRow :=
  { question_no := some "1", question := some "2+2?",
    option1 := some "3", option2 := some "4", option3 := some "5",
    option4 := some "", correct_answer := some "4",
    description := some "", reference := some "" }

/-- The example row with `correct_answer = "7"`: a digit value whose 1-based index is out of range and which matches no option. -/
def exRowSeven : RawRow :=
  { exRowSpec with correct_answer := some "7" }

/-- A row whose `correct_answer` is non-numeric and matches option 2 exactly. -/
def exRowText : RawRow :=
  { question_no := some "1", question := some "Q",
    option1 := some "a", option2 := some "b", option3 := some "c",
    option4 := some "", correct_answer := some "b",
    description := some "d", reference := some "r" }

/-- The `QuizItem` the loader produces for `exRowText`. -/
def exItemText : QuizItem :=
  { question_no := "1", question := "Q", options := ["a", "b", "c"],
    correct_option_id := 1, description := some "d", reference := some "r" }

/-- A row with a non-empty question but only blank/whitespace options. -/
def exRowBlank : RawRow :=
  { question_no := some "1", question := some "q",
    option1 := some "", option2 := some " ", option3 := some "",
    option4 := some "", correct_answer := some "x",
    description := none, reference := none }

/-- A row whose question is a single space: non-empty, but empty after stripping. -/
def exRowSpaceQ : RawRow :=
  { exRowText with question := some " " }

/-- A concrete bank item for exercising the delivery loop. -/
def exItem : QuizItem :=
  { question_no := "1", question := "2+2?", options := ["3", "4", "5"],
    correct_option_id := 1, description := none, reference := none }

/-- `list.index` of a member is a valid index. -/
theorem pyIndex_lt_length (a : String) (l : List String) (h : a ∈ l) :
    pyIndex a l < l.length := by
  induction l with
  | nil => cases h
  | cons x xs ih =>
    rw [List.mem_cons] at h
    simp only [pyIndex, List.length_cons]
    by_cases hx : x = a
    · simp [hx]
    · rcases h with h | h
      · exact absurd h.symm hx
      · simpa [hx] using ih h

/-- With enough fuel and a positive batch size the slices concatenate back to the input. -/
theorem batchesAux_flatten (b : Nat) (hb : 0 < b) :
    ∀ (fuel : Nat) (xs : List α), xs.length ≤ fuel →
      (batchesAux b fuel xs).flatten = xs := by
  intro fuel
  induction fuel with
  | zero =>
    intro xs h
    have : xs = [] := List.length_eq_zero.mp (Nat.le_zero.mp h)
    subst this
    rfl
  | succ n ih =>
    intro xs h
    match xs with
    | [] => rfl
    | x :: rest =>
      simp only [batchesAux, List.flatten_cons]
      rw [ih ((x :: rest).drop b)
        (by simp only [List.length_drop, List.length_cons]
            simp only [List.length_cons] at h
            omega)]
      exact List.take_append_drop b (x :: rest)

/-- The batches concatenate back to the bank, in order. -/
theorem batches_flatten (b : Nat) (hb : 0 < b) (xs : List α) :
    (batches b xs).flatten = xs :=
  batchesAux_flatten b hb xs.length xs le_rfl

/-- With enough fuel there are `ceil(length / b)` slices. -/
theorem batchesAux_length (b : Nat) (hb : 0 < b) :
    ∀ (fuel : Nat) (xs : List α), xs.length ≤ fuel →
      (batchesAux b fuel xs).length = (xs.length + b - 1) / b := by
  intro fuel
  induction fuel with
  | zero =>
    intro xs h
    have : xs = [] := List.length_eq_zero.mp (Nat.le_zero.mp h)
    subst this
    simp [batchesAux, Nat.div_eq_of_lt, Nat.sub_lt hb]
  | succ n ih =>
    intro xs h
    match xs with
    | [] => simp [batchesAux, Nat.div_eq_of_lt, Nat.sub_lt hb]
    | x :: rest =>
      simp only [batchesAux, List.length_cons]
      rw [ih ((x :: rest).drop b)
        (by simp only [List.length_drop, List.length_cons]
            simp only [List.length_cons] at h
            omega)]
      simp only [List.length_drop, List.length_cons]
      rcases Nat.lt_or_ge (rest.length + 1) b with hlt | hge
      · have h1 : rest.length + 1 - b = 0 := by omega
        have h2 : (rest.length + 1 + b - 1) / b = 1 := by
          apply Nat.div_eq_of_lt_le <;> omega
        rw [h1, h2, Nat.div_eq_of_lt (by omega)]
      · have h3 : rest.length + 1 + b - 1 = (rest.length + 1 - b + b - 1) + b := by omega
        rw [h3, Nat.add_div_right _ hb]

/-- No slices of an empty list. -/
theorem batchesAux_nil (b fuel : Nat) : batchesAux b fuel ([] : List α) = [] := by
  cases fuel <;> rfl

/-- A non-empty list yields at least one slice. -/
theorem batchesAux_ne_nil (b fuel : Nat) (x : α) (xs : List α) (hf : 1 ≤ fuel) :
    batchesAux b fuel (x :: xs) ≠ [] := by
  match fuel with
  | n + 1 => simp [batchesAux]

/-- Every slice but the last has length `b`; the last has length `length % b` when that is non-zero, else `b`. -/
theorem batchesAux_sizes (b : Nat) (hb : 0 < b) :
    ∀ (fuel : Nat) (xs : List α), xs.length ≤ fuel →
      (∀ l ∈ (batchesAux b fuel xs).dropLast, l.length = b) ∧
      (∀ l ∈ (batchesAux b fuel xs).getLast?,
        l.length = if xs.length % b = 0 then b else xs.length % b) := by
  intro fuel
  induction fuel with
  | zero =>
    intro xs h
    have : xs = [] := List.length_eq_zero.mp (Nat.le_zero.mp h)
    subst this
    simp [batchesAux]
  | succ n ih =>
    intro xs h
    match xs with
    | [] => simp [batchesAux]
    | x :: rest =>
      simp only [List.length_cons] at h
      simp only [batchesAux, List.length_cons]
      rcases Nat.lt_or_ge b (rest.length + 1) with hgt | hle
      · -- strictly more than one slice remains
        have hdne : (x :: rest).drop b ≠ [] := by
          apply List.ne_nil_of_length_pos
          simp only [List.length_drop, List.length_cons]
          omega
        obtain ⟨y, ys, hys⟩ := List.exists_cons_of_ne_nil hdne
        obtain ⟨r, rs, hrec⟩ : ∃ r rs, batchesAux b n ((x :: rest).drop b) = r :: rs := by
          rw [hys]
          exact List.exists_cons_of_ne_nil
            (batchesAux_ne_nil b n y ys (by
              have := congrArg List.length hys
              simp only [List.length_drop, List.length_cons] at this
              omega))
        have ihd := ih ((x :: rest).drop b)
          (by simp only [List.length_drop, List.length_cons]; omega)
        rw [hrec] at ihd
        rw [hrec]
        constructor
        · intro l hl
          rw [show ((x :: rest).take b :: r :: rs).dropLast
              = (x :: rest).take b :: (r :: rs).dropLast from rfl] at hl
          rcases List.mem_cons.mp hl with hl | hl
          · rw [hl]
            simp only [List.length_take, List.length_cons]
            omega
          · exact ihd.1 l hl
        · rw [List.getLast?_cons_cons]
          intro l hl
          have hres := ihd.2 l hl
          simp only [List.length_drop, List.length_cons] at hres
          rw [Nat.mod_eq_sub_mod (by omega : b ≤ rest.length + 1)]
          exact hres
      · -- the final (possibly short) slice
        have hdrop : (x :: rest).drop b = [] := by
          apply List.eq_nil_of_length_eq_zero
          simp only [List.length_drop, List.length_cons]
          omega
        rw [hdrop, batchesAux_nil]
        constructor
        · intro l hl
          simp at hl
        · intro l hl
          simp only [List.getLast?_singleton, Option.mem_def, Option.some.injEq] at hl
          subst hl
          simp only [List.length_take, List.length_cons]
          rcases Nat.eq_or_lt_of_le hle with heq | hlt
          · rw [if_pos (by rw [← heq]; exact Nat.mod_self _)]
            omega
          · rw [if_neg (by rw [Nat.mod_eq_of_lt (by omega)]; omega)]
            rw [Nat.mod_eq_of_lt (by omega)]
            omega

/-- There are `ceil(bank size / b)` batches. -/
theorem batches_length (b : Nat) (hb : 0 < b) (xs : List α) :
    (batches b xs).length = (xs.length + b - 1) / b :=
  batchesAux_length b hb xs.length xs le_rfl

/-- Batch sizes: `b` for all but the last, remainder for the last. -/
theorem batches_sizes (b : Nat) (hb : 0 < b) (xs : List α) :
    (∀ l ∈ (batches b xs).dropLast, l.length = b) ∧
    (∀ l ∈ (batches b xs).getLast?,
      l.length = if xs.length % b = 0 then b else xs.length % b) :=
  batchesAux_sizes b hb xs.length xs le_rfl

/-- Every emitted item has an in-range index, except that an item with an empty option list is still emitted, with index 0. -/
theorem normalizeRow_index (row : RawRow) (item : QuizItem) (w : Bool)
    (h : normalizeRow row = some (item, w)) :
    item.correct_option_id < item.options.length ∨
      (item.options = [] ∧ item.correct_option_id = 0) := by
  unfold normalizeRow at h
  by_cases hq : pyFalsy row.question
  · rw [if_pos hq] at h; cases h
  · rw [if_neg hq] at h
    simp only [Option.some.injEq, Prod.mk.injEq] at h
    obtain ⟨hitem, hw⟩ := h
    subst hitem
    dsimp only
    by_cases hc : 0 ≤ (resolveCid (pyStrip (getOr row.correct_answer))
        (postTrimOptions row)).1 ∧
        (resolveCid (pyStrip (getOr row.correct_answer))
          (postTrimOptions row)).1 < ((postTrimOptions row).length : Int)
    · left
      rw [if_pos hc]
      omega
    · rw [if_neg hc]
      match hopt : postTrimOptions row with
      | [] => right; exact ⟨rfl, rfl⟩
      | o :: os => left; simp

/-- The poll calls of one batch loop: exactly one per item, in order, whatever the outcomes. -/
theorem sendItems_filter_isPoll (c : String) (ok : Nat → Bool)
    (l : List (Nat × QuizItem)) :
    (sendItems c ok l).filter Event.isPoll = l.map (fun p => mkPoll c p.2) := by
  induction l with
  | nil => rfl
  | cons p rest ih =>
    rcases p with ⟨i, item⟩
    by_cases hok : ok i
    · simp only [sendItems, hok, if_pos, List.filter_cons]
      simp [mkPoll, Event.isPoll, ih]
    · simp only [sendItems, hok, if_neg, Bool.false_eq_true, not_false_iff]
      simp [mkPoll, Event.isPoll, ih]

/-- The error logs of one batch loop: exactly one per failed item, in order. -/
theorem sendItems_filter_isLog (c : String) (ok : Nat → Bool)
    (l : List (Nat × QuizItem)) :
    (sendItems c ok l).filter Event.isLog =
      (l.filter (fun p => !ok p.1)).map
        (fun p => Event.logError ("Failed to send question " ++ toString (p.1 + 1))) := by
  induction l with
  | nil => rfl
  | cons p rest ih =>
    rcases p with ⟨i, item⟩
    by_cases hok : ok i
    · simp [sendItems, hok, List.filter_cons, mkPoll, Event.isLog, ih]
    · simp [sendItems, hok, List.filter_cons, mkPoll, Event.isLog, ih]

/-- The inner loop sleeps `DELAY_BETWEEN_POLLS` once per successful item — failures skip the sleep. -/
theorem sendItems_countP_sleep (c : String) (ok : Nat → Bool)
    (l : List (Nat × QuizItem)) :
    (sendItems c ok l).countP (Event.isSleep DELAY_BETWEEN_POLLS) =
      (l.filter (fun p => ok p.1)).length := by
  induction l with
  | nil => rfl
  | cons p rest ih =>
    rcases p with ⟨i, item⟩
    by_cases hok : ok i
    · simp only [sendItems, hok, if_pos, List.countP_cons, List.filter_cons]
      simp [mkPoll, Event.isSleep, ih]
    · simp only [sendItems, hok, Bool.false_eq_true, if_neg, not_false_iff,
        List.countP_cons, List.filter_cons]
      simp [mkPoll, Event.isSleep, ih, hok]

/-- Every event of the inner loop carries anonymity `true` when it is a poll. -/
theorem sendItems_all_anon (c : String) (ok : Nat → Bool)
    (l : List (Nat × QuizItem)) :
    (sendItems c ok l).all (fun e => e.anonFlag != some false) = true := by
  induction l with
  | nil => rfl
  | cons p rest ih =>
    rcases p with ⟨i, item⟩
    by_cases hok : ok i
    · simp only [sendItems, hok, if_pos, List.all_cons]
      simpa [mkPoll, Event.anonFlag] using ih
    · simp only [sendItems, hok, Bool.false_eq_true, if_neg, not_false_iff,
        List.all_cons]
      simpa [mkPoll, Event.anonFlag] using ih

/-- The inner loop as a per-item trace: `[poll, sleep]` on success, `[poll, log]` on failure. -/
theorem sendItems_eq_flatten (c : String) (ok : Nat → Bool)
    (l : List (Nat × QuizItem)) :
    sendItems c ok l =
      (l.map (fun p =>
        if ok p.1 then [mkPoll c p.2, Event.sleep DELAY_BETWEEN_POLLS]
        else [mkPoll c p.2,
              Event.logError ("Failed to send question " ++ toString (p.1 + 1))])).flatten := by
  induction l with
  | nil => rfl
  | cons p rest ih =>
    rcases p with ⟨i, item⟩
    by_cases hok : ok i
    · simp [sendItems, hok, ih]
    · simp [sendItems, hok, ih]

/-- The inner loop never sleeps `DELAY_BETWEEN_BATCHES`. -/
theorem sendItems_countP_sleepB (c : String) (ok : Nat → Bool)
    (l : List (Nat × QuizItem)) :
    (sendItems c ok l).countP (Event.isSleep DELAY_BETWEEN_BATCHES) = 0 := by
  induction l with
  | nil => rfl
  | cons p rest ih =>
    rcases p with ⟨i, item⟩
    by_cases hok : ok i
    · simpa [sendItems, hok, List.countP_cons, mkPoll, Event.isSleep,
        DELAY_BETWEEN_POLLS, DELAY_BETWEEN_BATCHES] using ih
    · simpa [sendItems, hok, List.countP_cons, mkPoll, Event.isSleep] using ih

/-- Filtering the whole run commutes with the batch structure when the filter drops the inter-batch sleep. -/
theorem sendBatches_filter (c : String) (ok : Nat → Bool) (p : Event → Bool)
    (hp : p (Event.sleep DELAY_BETWEEN_BATCHES) = false)
    (L : List (List (Nat × QuizItem))) :
    ((L.map (fun batch => sendItems c ok batch ++
        [Event.sleep DELAY_BETWEEN_BATCHES])).flatten).filter p =
      (L.map (fun batch => (sendItems c ok batch).filter p)).flatten := by
  induction L with
  | nil => rfl
  | cons batch rest ih => simp [List.filter_append, hp, ih]

/-- Inter-poll sleeps across the run: one per successful item. -/
theorem sendBatches_countP_sleepP (c : String) (ok : Nat → Bool)
    (L : List (List (Nat × QuizItem))) :
    ((L.map (fun batch => sendItems c ok batch ++
        [Event.sleep DELAY_BETWEEN_BATCHES])).flatten).countP
          (Event.isSleep DELAY_BETWEEN_POLLS) =
      ((L.flatten).filter (fun p => ok p.1)).length := by
  induction L with
  | nil => rfl
  | cons batch rest ih =>
    simp only [List.map_cons, List.flatten_cons, List.countP_append,
      sendItems_countP_sleep, List.filter_append, List.length_append, ih]
    simp [Event.isSleep, DELAY_BETWEEN_POLLS, DELAY_BETWEEN_BATCHES, List.countP_cons]

/-- Inter-batch sleeps across the run: one per batch (including the last). -/
theorem sendBatches_countP_sleepB (c : String) (ok : Nat → Bool)
    (L : List (List (Nat × QuizItem))) :
    ((L.map (fun batch => sendItems c ok batch ++
        [Event.sleep DELAY_BETWEEN_BATCHES])).flatten).countP
          (Event.isSleep DELAY_BETWEEN_BATCHES) = L.length := by
  induction L with
  | nil => rfl
  | cons batch rest ih =>
    simp only [List.map_cons, List.flatten_cons, List.countP_append,
      sendItems_countP_sleepB, List.length_cons, ih]
    simp [Event.isSleep, List.countP_cons]
    omega

/-- Every poll of the run is anonymous. -/
theorem sendBatches_all_anon (c : String) (ok : Nat → Bool)
    (L : List (List (Nat × QuizItem))) :
    ((L.map (fun batch => sendItems c ok batch ++
        [Event.sleep DELAY_BETWEEN_BATCHES])).flatten).all
          (fun e => e.anonFlag != some false) = true := by
  induction L with
  | nil => rfl
  | cons batch rest ih =>
    simp only [List.map_cons, List.flatten_cons, List.all_append, ih,
      Bool.and_true]
    rw [sendItems_all_anon]
    decide

/-- C1, counterexample: for the example row with `correct_answer = "7"` and
post-trim options `["3", "4", "5"]`, the trimmed value is all digits, its
1-based index 7 is out of range, and no exact match exists — so the claim's
fallback clause requires `correct_index = 0` *and a recorded warning*.  The
code does set `correct_index = 0` (the silent clamp on line 99) but records
no warning: the warning flag of the normalizer is `false`. -/
theorem C1_counterexample :
    pyIsDigit (pyStrip (getOr exRowSeven.correct_answer)) = true ∧
    pyInt (pyStrip (getOr exRowSeven.correct_answer)) = 7 ∧
    (postTrimOptions exRowSeven).length = 3 ∧
    pyStrip (getOr exRowSeven.correct_answer) ∉ postTrimOptions exRowSeven ∧
    (normalizeRow exRowSeven).map (fun p => (p.1.correct_option_id, p.2)) =
      some (0, false) := by decide

/-- C1, amended: resolution of `correct_answer` for every emitted row.  If
the trimmed value is all decimal digits, `correct_index = value - 1` when
that 1-based index is in range of the post-trim option list and 0 otherwise,
and *no warning is recorded in either case*; otherwise, on an exact match
against the option list, `correct_index` is the position of the first match,
no warning; otherwise (no match even after the code's redundant re-strip
pass) the DefaultFirst fallback sets `correct_index = 0` and records the
warning. -/
theorem C1_answer_resolution (row : RawRow) (item : QuizItem) (w : Bool)
    (h : normalizeRow row = some (item, w)) :
    (pyIsDigit (pyStrip (getOr row.correct_answer)) = true →
      w = false ∧
      item.correct_option_id =
        if 1 ≤ pyInt (pyStrip (getOr row.correct_answer)) ∧
            pyInt (pyStrip (getOr row.correct_answer)) ≤ (postTrimOptions row).length
        then pyInt (pyStrip (getOr row.correct_answer)) - 1
        else 0) ∧
    (pyIsDigit (pyStrip (getOr row.correct_answer)) = false →
      pyStrip (getOr row.correct_answer) ∈ postTrimOptions row →
      w = false ∧
      item.correct_option_id =
        pyIndex (pyStrip (getOr row.correct_answer)) (postTrimOptions row)) ∧
    (pyIsDigit (pyStrip (getOr row.correct_answer)) = false →
      pyStrip (getOr row.correct_answer) ∉ postTrimOptions row →
      pyStrip (pyStrip (getOr row.correct_answer)) ∉ (postTrimOptions row).map pyStrip →
      w = true ∧ item.correct_option_id = 0) := by
  unfold normalizeRow at h
  by_cases hq : pyFalsy row.question
  · rw [if_pos hq] at h; cases h
  · rw [if_neg hq] at h
    simp only [Option.some.injEq, Prod.mk.injEq] at h
    obtain ⟨hitem, hw⟩ := h
    subst hitem
    subst hw
    dsimp only
    refine ⟨?_, ?_, ?_⟩
    · intro hd
      simp only [resolveCid, hd, if_true]
      refine ⟨by trivial, ?_⟩
      dsimp only
      split_ifs with h1 h2 h2 <;> omega
    · intro hd hm
      simp only [resolveCid, hd, Bool.false_eq_true, if_false]
      rw [if_pos hm]
      refine ⟨by trivial, ?_⟩
      dsimp only
      have hlt := pyIndex_lt_length _ _ hm
      split_ifs with h1 <;> omega
    · intro hd hm1 hm2
      simp only [resolveCid, hd, Bool.false_eq_true, if_false]
      rw [if_neg hm1, if_neg hm2]
      refine ⟨by trivial, ?_⟩
      dsimp only
      split_ifs with h1 <;> omega

/-- C1 witness: the amended theorem applied to the exact-match row `exRowText`. -/
theorem C1_answer_resolution_witness :
    (pyIsDigit (pyStrip (getOr exRowText.correct_answer)) = true →
      false = false ∧
      exItemText.correct_option_id =
        if 1 ≤ pyInt (pyStrip (getOr exRowText.correct_answer)) ∧
            pyInt (pyStrip (getOr exRowText.correct_answer)) ≤
              (postTrimOptions exRowText).length
        then pyInt (pyStrip (getOr exRowText.correct_answer)) - 1
        else 0) ∧
    (pyIsDigit (pyStrip (getOr exRowText.correct_answer)) = false →
      pyStrip (getOr exRowText.correct_answer) ∈ postTrimOptions exRowText →
      false = false ∧
      exItemText.correct_option_id =
        pyIndex (pyStrip (getOr exRowText.correct_answer)) (postTrimOptions exRowText)) ∧
    (pyIsDigit (pyStrip (getOr exRowText.correct_answer)) = false →
      pyStrip (getOr exRowText.correct_answer) ∉ postTrimOptions exRowText →
      pyStrip (pyStrip (getOr exRowText.correct_answer)) ∉
        (postTrimOptions exRowText).map pyStrip →
      false = true ∧ exItemText.correct_option_id = 0) :=
  C1_answer_resolution exRowText exItemText false rfl

/-- C2, evaluation at the claimed input: normalizing the spec's example row
`{question_no:"1", question:"2+2?", option1:"3", option2:"4", option3:"5",
option4:"", correct_answer:"4"}` yields options `["3", "4", "5"]` but
`correct_index = 0`, not the claimed 1: `"4".isdigit()` sends the value down
the numeric branch as 1-based index 4, which is out of range for 3 options
and is silently clamped to 0, shadowing the exact match at position 1. -/
theorem C2_spec_example_yields_zero :
    (normalizeRow exRowSpec).map (fun p => (p.1.options, p.1.correct_option_id)) =
      some (["3", "4", "5"], 0) := by decide

/-- C3, counterexample: a row with a non-empty question whose four option
cells are all blank is still appended to the bank — with an empty option
list and `correct_index = 0`, violating both halves of the claimed guard
(`options` non-empty, `correct_index < len(options)`). -/
theorem C3_counterexample :
    (normalizeRow exRowBlank).isSome = true ∧
    (normalizeRow exRowBlank).map (fun p => p.1.options) = some [] ∧
    (normalizeRow exRowBlank).map
      (fun p => decide (p.1.correct_option_id < p.1.options.length)) =
        some false := by decide

/-- C3, amended: every record in a bank loaded from an empty initial bank
has `0 <= correct_index < len(options)` whenever its option list is
non-empty; a record with an empty option list is emitted anyway, with
`correct_index = 0` (the loader has no emission guard). -/
theorem C3_bank_invariant (fieldnames : List String) (rows : List RawRow)
    (items : List QuizItem) (n : Nat)
    (h : loadCSV fieldnames rows [] = Except.ok (items, n))
    (item : QuizItem) (hm : item ∈ items) :
    item.correct_option_id < item.options.length ∨
      (item.options = [] ∧ item.correct_option_id = 0) := by
  unfold loadCSV at h
  by_cases hall : requiredColumns.all (fun c => fieldnames.contains c)
  · rw [if_pos hall] at h
    simp only [List.nil_append, Except.ok.injEq, Prod.mk.injEq] at h
    obtain ⟨hitems, -⟩ := h
    subst hitems
    obtain ⟨row, -, hrow⟩ := List.mem_filterMap.mp hm
    obtain ⟨pair, hpair, hfst⟩ := Option.map_eq_some'.mp hrow
    rcases pair with ⟨item', w⟩
    cases hfst
    exact normalizeRow_index row item' w hpair
  · rw [if_neg hall] at h
    cases h

/-- C3 witness: the amended invariant at a concrete one-row load. -/
theorem C3_bank_invariant_witness :
    exItemText.correct_option_id < exItemText.options.length ∨
      (exItemText.options = [] ∧ exItemText.correct_option_id = 0) :=
  C3_bank_invariant requiredColumns [exRowText] [exItemText] 1 rfl
    exItemText (by decide)

/-- C4: when any required column is missing from the header, `load_csv`
raises the descriptive `ValueError` (modelled as `Except.error`), the
result does not depend on the data rows (the check precedes the row loop),
and no records are produced. -/
theorem C4_missing_column (fieldnames : List String) (rows : List RawRow)
    (items0 : List QuizItem) (c : String) (hc : c ∈ requiredColumns)
    (hmiss : c ∉ fieldnames) :
    loadCSV fieldnames rows items0 = Except.error "CSV missing columns" ∧
    ∀ rows', loadCSV fieldnames rows' items0 = loadCSV fieldnames rows items0 := by
  have hall : (requiredColumns.all (fun x => fieldnames.contains x)) = false := by
    rw [List.all_eq_false]
    exact ⟨c, hc, by simpa [List.contains] using hmiss⟩
  constructor
  · unfold loadCSV
    rw [if_neg (by rw [hall]; exact Bool.false_ne_true)]
  · intro rows'
    unfold loadCSV
    rw [if_neg (by rw [hall]; exact Bool.false_ne_true),
      if_neg (by rw [hall]; exact Bool.false_ne_true)]

/-- C4 witness: a header containing only `question_no` fails the load. -/
theorem C4_missing_column_witness :
    loadCSV ["question_no"] [] [] = Except.error "CSV missing columns" :=
  (C4_missing_column ["question_no"] [] [] "question" (by decide) (by decide)).1

/-- C5, counterexample: with a transport that always fails and a one-item
bank, the full delivery trace contains exactly one send attempt — the item
is not retried (`max_retries` does not exist in the code), no
`FailedAfterRetries`/failure count is produced, only a log line — refuting
the claim's retry clause. -/
theorem C5_counterexample :
    sendQuizBatch "chat" false (fun _ => false) [exItem] =
      [mkPoll "chat" exItem, Event.logError "Failed to send question 1",
       Event.sleep DELAY_BETWEEN_BATCHES] ∧
    (sendQuizBatch "chat" false (fun _ => false) [exItem]).countP Event.isPoll = 1 := by
  decide

/-- C5, amended: every item is attempted exactly once per run, in order,
whatever the outcomes (so a failing item is never retried), and every
failing item produces exactly one logged error; the loop never raises and
always proceeds through all remaining items and batches. -/
theorem C5_single_attempt_no_retry (chat_id : String) (to_channel : Bool)
    (sendOk : Nat → Bool) (items : List QuizItem) :
    (sendQuizBatch chat_id to_channel sendOk items).filter Event.isPoll =
      items.map (mkPoll chat_id) ∧
    (sendQuizBatch chat_id to_channel sendOk items).filter Event.isLog =
      (items.enum.filter (fun p => !sendOk p.1)).map
        (fun p => Event.logError ("Failed to send question " ++ toString (p.1 + 1))) := by
  constructor
  · unfold sendQuizBatch
    rw [sendBatches_filter _ _ _ (by decide)]
    simp only [sendItems_filter_isPoll]
    rw [← List.map_flatten, batches_flatten BATCH_SIZE (by decide)]
    rw [show (fun p : Nat × QuizItem => mkPoll chat_id p.2) =
        (mkPoll chat_id) ∘ Prod.snd from rfl]
    rw [← List.map_map, List.enum_map_snd]
  · unfold sendQuizBatch
    rw [sendBatches_filter _ _ _ (by decide)]
    simp only [sendItems_filter_isLog]
    rw [show (List.map (fun batch => ((batch.filter (fun p => !sendOk p.1)).map
          (fun p => Event.logError ("Failed to send question " ++ toString (p.1 + 1)))))
          (batches BATCH_SIZE items.enum)) =
        List.map (List.map
          (fun p => Event.logError ("Failed to send question " ++ toString (p.1 + 1))))
          (List.map (List.filter (fun p => !sendOk p.1)) (batches BATCH_SIZE items.enum))
        from by rw [List.map_map]; rfl]
    rw [← List.map_flatten, ← List.filter_flatten, batches_flatten BATCH_SIZE (by decide)]

/-- C6: for every bank and every batch size `B > 0`, the slicing loop
partitions the bank into `ceil(M/B)` contiguous batches preserving the
original order, each of size `B` except possibly the last, whose size is
`M mod B` when that is non-zero. -/
theorem C6_batch_partition {α : Type} (xs : List α) (B : Nat) (hB : 0 < B) :
    (batches B xs).flatten = xs ∧
    (batches B xs).length = (xs.length + B - 1) / B ∧
    (∀ l ∈ (batches B xs).dropLast, l.length = B) ∧
    (∀ l ∈ (batches B xs).getLast?,
      l.length = if xs.length % B = 0 then B else xs.length % B) :=
  ⟨batches_flatten B hB xs, batches_length B hB xs,
   (batches_sizes B hB xs).1, (batches_sizes B hB xs).2⟩

/-- C6 witness: five items in batches of two give `[2, 2, 1]`. -/
theorem C6_batch_partition_witness :
    0 < 2 ∧ (batches 2 [0, 1, 2, 3, 4]).flatten = [0, 1, 2, 3, 4] ∧
      (batches 2 [0, 1, 2, 3, 4]).length = 3 :=
  ⟨by decide, (C6_batch_partition [0, 1, 2, 3, 4] 2 (by decide)).1,
    (C6_batch_partition [0, 1, 2, 3, 4] 2 (by decide)).2.1⟩

/-- C7, counterexample: a row whose question is a single space is empty
after trimming, yet the loader emits a record for it — the code tests raw
falsiness (`not row.get("question")`), not the trimmed text. -/
theorem C7_counterexample :
    pyStrip (getOr exRowSpaceQ.question) = "" ∧
    (normalizeRow exRowSpaceQ).isSome = true := by decide

/-- C7, amended: a row is dropped exactly when its raw question value is
missing or the empty string; no trimming is applied before the check, so
whitespace-only questions are kept. -/
theorem C7_skip_exactly_falsy (row : RawRow) :
    normalizeRow row = none ↔ (row.question = none ∨ row.question = some "") := by
  cases hq : row.question with
  | none => simp [normalizeRow, pyFalsy, hq]
  | some s =>
    by_cases hs : s = "" <;> simp [normalizeRow, pyFalsy, hq, hs]

/-- C8, counterexample: in a two-item batch whose first send fails, no
`DELAY_BETWEEN_POLLS` sleep occurs between the failed attempt and the next
item — the sleep sits inside the `try` and is skipped on failure — so the
trace holds one inter-poll sleep for two attempted items. -/
theorem C8_counterexample :
    sendQuizBatch "chat" false (fun i => decide (i = 1)) [exItem, exItem] =
      [mkPoll "chat" exItem, Event.logError "Failed to send question 1",
       mkPoll "chat" exItem, Event.sleep DELAY_BETWEEN_POLLS,
       Event.sleep DELAY_BETWEEN_BATCHES] ∧
    (sendQuizBatch "chat" false (fun i => decide (i = 1)) [exItem, exItem]).countP
      (Event.isSleep DELAY_BETWEEN_POLLS) = 1 := by
  decide

/-- C8, amended: the run is, batch by batch, `[poll, sleep send_delay]` per
successful item and `[poll, log]` per failed item (no sleep after a failed
attempt), followed by one `batch_delay` sleep per batch — including after
the final batch; in total one inter-poll sleep per *successful* item and
`ceil(M/BATCH_SIZE)` inter-batch sleeps. -/
theorem C8_pacing (chat_id : String) (to_channel : Bool)
    (sendOk : Nat → Bool) (items : List QuizItem) :
    sendQuizBatch chat_id to_channel sendOk items =
      ((batches BATCH_SIZE items.enum).map (fun batch =>
        (batch.map (fun p =>
          if sendOk p.1 then [mkPoll chat_id p.2, Event.sleep DELAY_BETWEEN_POLLS]
          else [mkPoll chat_id p.2,
                Event.logError ("Failed to send question " ++ toString (p.1 + 1))])).flatten ++
        [Event.sleep DELAY_BETWEEN_BATCHES])).flatten ∧
    (sendQuizBatch chat_id to_channel sendOk items).countP
        (Event.isSleep DELAY_BETWEEN_POLLS) =
      (items.enum.filter (fun p => sendOk p.1)).length ∧
    (sendQuizBatch chat_id to_channel sendOk items).countP
        (Event.isSleep DELAY_BETWEEN_BATCHES) =
      (items.length + BATCH_SIZE - 1) / BATCH_SIZE := by
  refine ⟨?_, ?_, ?_⟩
  · unfold sendQuizBatch
    simp only [sendItems_eq_flatten]
  · unfold sendQuizBatch
    rw [sendBatches_countP_sleepP, batches_flatten BATCH_SIZE (by decide)]
  · unfold sendQuizBatch
    rw [sendBatches_countP_sleepB, batches_length BATCH_SIZE (by decide)]
    simp

/-- C9: `load_csv` appends the newly accepted records after the existing
ones and returns the cumulative bank size, so loading the same source again
appends the same records once more (every record twice when starting from
an empty bank). -/
theorem C9_load_appends_cumulative (fieldnames : List String) (rows : List RawRow)
    (items0 items1 : List QuizItem) (n1 : Nat)
    (h : loadCSV fieldnames rows items0 = Except.ok (items1, n1)) :
    n1 = items1.length ∧
    items1.take items0.length = items0 ∧
    loadCSV fieldnames rows items1 =
      Except.ok (items1 ++ items1.drop items0.length,
        (items1 ++ items1.drop items0.length).length) := by
  unfold loadCSV at h ⊢
  by_cases hall : requiredColumns.all (fun c => fieldnames.contains c)
  · rw [if_pos hall] at h
    rw [if_pos hall]
    simp only [Except.ok.injEq, Prod.mk.injEq] at h
    obtain ⟨hitems, hn⟩ := h
    subst hitems
    refine ⟨hn.symm, List.take_left _ _, ?_⟩
    rw [List.drop_left]
  · rw [if_neg hall] at h
    cases h

/-- C9 witness: loading one row twice duplicates its record. -/
theorem C9_load_appends_cumulative_witness :
    1 = [exItemText].length ∧
    [exItemText].take ([] : List QuizItem).length = [] ∧
    loadCSV requiredColumns [exRowText] [exItemText] =
      Except.ok ([exItemText] ++ [exItemText].drop ([] : List QuizItem).length,
        ([exItemText] ++ [exItemText].drop ([] : List QuizItem).length).length) :=
  C9_load_appends_cumulative requiredColumns [exRowText] [] [exItemText] 1 rfl

/-- C10: every poll payload of a delivery run has `is_anonymous = true`,
and the `to_channel` parameter has no effect on the trace at all. -/
theorem C10_always_anonymous (chat_id : String) (to_channel : Bool)
    (sendOk : Nat → Bool) (items : List QuizItem) :
    (sendQuizBatch chat_id to_channel sendOk items).all
        (fun e => e.anonFlag != some false) = true ∧
    sendQuizBatch chat_id to_channel sendOk items =
      sendQuizBatch chat_id true sendOk items ∧
    sendQuizBatch chat_id to_channel sendOk items =
      sendQuizBatch chat_id false sendOk items :=
  ⟨sendBatches_all_anon chat_id sendOk _, rfl, rfl⟩
